import Mathlib

/-!
Verification of the PetAdoption-API mongodb data-access core.

This file gives a shallow embedding of the operation queue, the generic
Database CRUD layer, the timestamped specialization and the Animal domain
specialization found under src/core/mongodb, and proves or refutes the
frozen claims about them.

Conventions:
 - JavaScript objects are insertion-ordered association lists of string keys.
 - Asynchronous store completions are modelled as explicit result values
   passed to the translated callback bodies.
 - Machine integers do not occur; all counters are Nat.
-/

namespace PetAdoption

/-- JavaScript values as they appear in option and document objects of the core. -/
inductive JsVal where
  | vBool : Bool → JsVal
  | vStr : String → JsVal
  | vNat : Nat → JsVal
deriving DecidableEq

/-- A JavaScript object: an insertion-ordered association list of string keys.
Own-property lookup returns the first binding of a key. -/
abbrev JsObj := List (String × JsVal)

/-- Property read o[k]: first binding of key k, if any. -/
def jsGet (o : JsObj) (k : String) : Option JsVal :=
  (o.find? (fun kv => kv.fst == k)).map (fun kv => kv.snd)

/-- JavaScript delete o[k]: removes the binding of key k. -/
def jsDelete (o : JsObj) (k : String) : JsObj :=
  o.filter (fun kv => !(kv.fst == k))

/-- One assignment step of lodash defaults: copy the source binding onto the
destination only when the destination does not yet have the key. -/
def jsDefaultsStep (dest : JsObj) (kv : String × JsVal) : JsObj :=
  if (jsGet dest kv.fst).isSome then dest else dest ++ [kv]

/-- lodash defaults with a single source object. -/
def jsDefaultsOne (dest src : JsObj) : JsObj :=
  src.foldl jsDefaultsStep dest

/-- lodash defaults with several source objects, applied left to right. -/
def jsDefaults (dest : JsObj) (srcs : List JsObj) : JsObj :=
  srcs.foldl jsDefaultsOne dest

/-- lodash defaults as called on a possibly omitted options argument.
lodash mutates its first argument in place and returns it, so when an object
is passed the caller now observes the merged object; when the argument is
omitted (undefined), lodash works on a fresh object and the caller's variable
stays undefined. First component: what the caller's options variable refers to
after the call; second component: the merged object bound to the local. -/
def lodashDefaults (options : Option JsObj) (srcs : List JsObj) :
    Option JsObj × JsObj :=
  match options with
  | some o => (some (jsDefaults o srcs), jsDefaults o srcs)
  | none => (none, jsDefaults [] srcs)

/-- JavaScript truthiness of an optional string property: undefined and the
empty string are falsy, every other string is truthy. -/
def jsTruthyStr : Option String → Bool
  | none => false
  | some s => !(s == "")

/-! ## Connection adapter and operation queue (lib/database/index.js) -/

/-- Connection adapter states (MongoDBAdapter contract, spec section 3). -/
inductive AdapterState where
  | closed
  | connecting
  | connected
  | disconnected
deriving DecidableEq

/-- Adapter state query isConnected(). -/
def AdapterState.isConnected : AdapterState → Bool
  | AdapterState.connected => true
  | _ => false

/-- Adapter state query isClosed(). -/
def AdapterState.isClosed : AdapterState → Bool
  | AdapterState.closed => true
  | _ => false

/-- Observable state of one Database instance for the queue claims.
Queue entries are thunk identifiers; invs records, in order, every thunk
invocation performed so far. adapterActiveFlag models the field the
disconnected handler actually writes: inside the handler, this is bound to
the adapter (the event emitter), not the Database, so this._isActive = false
lands on the adapter object and the Database activation flag is untouched. -/
structure DBState where
  queue : List Nat
  invs : List Nat
  isActive : Bool
  adapter : AdapterState
  adapterActiveFlag : Bool
deriving DecidableEq

/-- A thunk program: thunkProg i n is the ordered list of re-entrant exec
calls that thunk i performs during its n-th invocation (counting from 0);
some j passes the callable thunk j, none is a kick with no argument.
This models thunk bodies as closures whose behaviour may depend on how many
times they ran before. -/
abbrev ThunkProg := Nat → Nat → List (Option Nat)

mutual

/-- processQueue from Database.exec (index.js lines 72-77): while the queue
is non-empty, invoke the head thunk (bound to the Database) and only after
the invocation returns shift the first element off the queue. The shift
applies to the queue as it stands after the invocation. -/
def processQueue (prog : ThunkProg) (fuel : Nat) (st : DBState) : DBState :=
  match fuel with
  | 0 => st
  | Nat.succ fuel1 =>
    match st.queue with
    | [] => st
    | i :: _ =>
      let st1 : DBState := { st with invs := st.invs ++ [i] }
      let st2 := runCalls prog fuel1 (prog i (st.invs.count i)) st1
      processQueue prog fuel1 { st2 with queue := st2.queue.drop 1 }
termination_by (fuel, 0, 0)

/-- Runs, in order, the exec calls a thunk body makes during one invocation. -/
def runCalls (prog : ThunkProg) (fuel : Nat) (cs : List (Option Nat)) (st : DBState) :
    DBState :=
  match cs with
  | [] => st
  | c :: rest => runCalls prog fuel rest (exec prog fuel c st)
termination_by (fuel, 2, cs.length)

/-- Database.exec (index.js lines 61-84): a callable argument is appended to
the queue, a non-callable argument is ignored; then, if the adapter is
connected and the Database is active, the queue is drained; otherwise, if the
adapter is closed, a connect is triggered. -/
def exec (prog : ThunkProg) (fuel : Nat) (c : Option Nat) (st : DBState) : DBState :=
  let st1 : DBState :=
    match c with
    | some j => { st with queue := st.queue ++ [j] }
    | none => st
  if st1.adapter.isConnected && st1.isActive then
    processQueue prog fuel st1
  else if st1.adapter.isClosed then
    { st1 with adapter := AdapterState.connecting }
  else
    st1
termination_by (fuel, 1, 0)

end

/-- Successive top-level exec calls, each passing a callable thunk. -/
def runExecList (prog : ThunkProg) (fuel : Nat) (calls : List Nat) (st : DBState) :
    DBState :=
  calls.foldl (fun s t => exec prog fuel (some t) s) st

/-- Successive top-level exec calls with possibly non-callable arguments. -/
def runExecsOpt (prog : ThunkProg) (fuel : Nat) (calls : List (Option Nat)) (st : DBState) :
    DBState :=
  calls.foldl (fun s c => exec prog fuel c s) st

/-- The adapter disconnected event (handler registered in
onDBAdapterConnected, index.js lines 125-127). The handler body writes
this._isActive = false with this bound to the adapter, so only the junk
adapter field changes; the queue and the Database activation flag are left
alone. -/
def disconnectEvent (st : DBState) : DBState :=
  { st with adapter := AdapterState.disconnected, adapterActiveFlag := false }

/-- A concrete thunk program for the re-entrancy analysis of exec: thunk 0,
on its first invocation only, re-entrantly calls exec with thunk 1; every
other invocation of any thunk does nothing. -/
def progC : ThunkProg := fun i n =>
  match i, n with
  | 0, 0 => [some 1]
  | _, _ => []

/-! ## Generic Database CRUD (lib/database/index.js) -/

/-- The domain error wrapper (lib/error): every store-level error or absent
result is wrapped into a DBError carrying the original message. -/
inductive DBError where
  | mk : String → DBError
deriving DecidableEq

/-- The built-in option defaults of Database.update (index.js lines 262-265),
in the key order of the object literal. -/
def updateBuiltinOptions : JsObj :=
  [("new", JsVal.vBool true), ("upsert", JsVal.vBool true)]

/-- The options processing of Database.update: underscore-options is
lodash defaults of the caller options over the update built-ins and then the
configured query options. First component: the object the caller's options
variable refers to afterwards (the one later handed to findOneAndUpdate);
second: the merged object used for the completion callback. -/
def updateOptions (options : Option JsObj) (cfgQueryOptions : JsObj) :
    Option JsObj × JsObj :=
  lodashDefaults options [updateBuiltinOptions, cfgQueryOptions]

/-- Mongoose document materialization used by Database.update: the document
built by new MongooseModel(saveProps) and read back with toObject() carries
the save fields plus a store-generated internal identifier when the payload
did not supply one. -/
def mongooseToObject (saveProps : JsObj) (generatedId : JsVal) : JsObj :=
  if (jsGet saveProps "_id").isSome then saveProps
  else saveProps ++ [("_id", generatedId)]

/-- The findOneAndUpdate call issued by Database.update, as seen at the store
boundary. -/
structure UpdateStoreCall where
  whereProps : JsObj
  writeDoc : JsObj
  passedOptions : Option JsObj
deriving DecidableEq

/-- The observable effect of one Database.update call (index.js lines
260-288): defaults are merged into underscore-options, a mongoose document is
materialized from saveProps, its internal identifier and version fields are
deleted, and findOneAndUpdate is issued with the original options variable
(not the merged local), which is the caller object mutated in place when one
was passed and undefined when the argument was omitted. -/
structure UpdateEffect where
  storeCall : UpdateStoreCall
  callerOptions : Option JsObj
  mergedOptions : JsObj
deriving DecidableEq

/-- Database.update (index.js lines 260-288). -/
def update (whereProps saveProps : JsObj) (options : Option JsObj)
    (cfgQueryOptions : JsObj) (generatedId : JsVal) : UpdateEffect :=
  let opts := updateOptions options cfgQueryOptions
  let data0 := mongooseToObject saveProps generatedId
  let data1 := jsDelete (jsDelete data0 "_id") "__v"
  { storeCall :=
      { whereProps := whereProps
        writeDoc := data1
        passedOptions := opts.fst }
    callerOptions := opts.fst
    mergedOptions := opts.snd }

/-- The upsert flag carried by the options object actually handed to
findOneAndUpdate by Database.update. -/
def issuedUpsertFlag (e : UpdateEffect) : Option JsVal :=
  e.storeCall.passedOptions.bind (fun o => jsGet o "upsert")

/-- The new flag carried by the options object actually handed to
findOneAndUpdate by Database.update. -/
def issuedNewFlag (e : UpdateEffect) : Option JsVal :=
  e.storeCall.passedOptions.bind (fun o => jsGet o "new")

/-- Options processing of Database.findOne (index.js lines 199-202):
lodash defaults of the caller options over the configured query options. -/
def findOneOptions (options : Option JsObj) (cfgQueryOptions : JsObj) :
    Option JsObj × JsObj :=
  lodashDefaults options [cfgQueryOptions]

/-- Options processing of findLatest (timestamped.js lines 72-73). -/
def findLatestOptions (options : Option JsObj) (cfgQueryOptions : JsObj) :
    Option JsObj × JsObj :=
  lodashDefaults options [cfgQueryOptions]

/-- Options processing of Database.create (index.js lines 297-298). -/
def createOptions (options : Option JsObj) (cfgQueryOptions : JsObj) :
    Option JsObj × JsObj :=
  lodashDefaults options [cfgQueryOptions]

/-- Options processing of AnimalDatabase.findAnimals (animal.js lines 190-192). -/
def findAnimalsOptions (options : Option JsObj) (cfgQueryOptions : JsObj) :
    Option JsObj × JsObj :=
  lodashDefaults options [cfgQueryOptions]

/-- Options processing of AnimalDatabase.saveAnimal (animal.js lines 223-225). -/
def saveAnimalOptions (options : Option JsObj) (cfgQueryOptions : JsObj) :
    Option JsObj × JsObj :=
  lodashDefaults options [cfgQueryOptions]

/-- Options processing of AnimalDatabase.removeAnimal (animal.js lines 156-158). -/
def removeAnimalOptions (options : Option JsObj) (cfgQueryOptions : JsObj) :
    Option JsObj × JsObj :=
  lodashDefaults options [cfgQueryOptions]

/-! ## Animal domain upsert (animal.js) -/

/-- Decimal digit printing helper, structural on a fuel argument so that
concrete values reduce by rfl. -/
def natToDigitsAux : Nat → Nat → List Char → List Char
  | 0, _, acc => acc
  | Nat.succ fuel, n, acc =>
    let d := Char.ofNat (48 + n % 10)
    if n < 10 then d :: acc
    else natToDigitsAux fuel (n / 10) (d :: acc)

/-- The string form of an internal identifier, as produced by the JavaScript
toString method on the identifier value. -/
def natToString (n : Nat) : String :=
  String.mk (natToDigitsAux (n + 1) n [])

/-- Search criteria of the domain upsert; the only field the decision rule
inspects is the external identifier petId. -/
structure SearchProps where
  petId : Option String
deriving DecidableEq

/-- The store operation issued by the static upsert of the animal collection
(animal.js lines 66-105), as seen at the store boundary. -/
inductive AnimalStoreOp where
  | findOneAndUpdate (query : JsObj) (data : JsObj) (opts : JsObj)
  | create (data : JsObj)
deriving DecidableEq

/-- The option defaults of the static upsert (animal.js lines 67-71), in the
key order of the object literal. -/
def upsertBuiltinOptions : JsObj :=
  [("upsert", JsVal.vBool true), ("new", JsVal.vBool true)]

/-- The decision rule of the static upsert (animal.js lines 66-105): a truthy
searchProps.petId (a non-empty string) selects findOneAndUpdate keyed by that
petId; otherwise an unconditional create of saveData is issued. The match
below spells out the JavaScript truthiness test on searchProps.petId. -/
def upsert (searchProps : SearchProps) (saveData : JsObj) (options : Option JsObj) :
    AnimalStoreOp :=
  let base : JsObj :=
    match options with
    | some o => o
    | none => []
  let opts := jsDefaults base [upsertBuiltinOptions]
  match searchProps.petId with
  | some s =>
    if s == "" then AnimalStoreOp.create saveData
    else AnimalStoreOp.findOneAndUpdate [("petId", JsVal.vStr s)] saveData opts
  | none => AnimalStoreOp.create saveData

/-- A stored animal record: the store-assigned internal identifier, the
external identifier petId, and the remaining fields. -/
structure AnimalRecord where
  oid : Nat
  petId : Option String
  fields : JsObj
deriving DecidableEq

/-- The animal collection state: stored records plus the next internal
identifier the store will assign. -/
structure AnimalStore where
  docs : List AnimalRecord
  nextId : Nat
deriving DecidableEq

/-- The petId carried by a save payload, if any. -/
def savePetId (saveData : JsObj) : Option String :=
  match jsGet saveData "petId" with
  | some (JsVal.vStr s) => some s
  | _ => none

/-- The post save middleware body of the animal collection (animal.js lines
46-58): when the saved document has a falsy petId, it is assigned the string
form of the internal identifier and the document is saved again (the second
save re-enters the hook with petId now set and falls through to next). -/
def animalPostSaveHook (doc : AnimalRecord) : AnimalRecord :=
  if jsTruthyStr doc.petId then doc
  else { doc with petId := some (natToString doc.oid) }

/-- Modelled from the spec: the store driver capability of section 6 (the
mongoose model and the Collection middleware wiring live outside src).
model.create(saveData, cb) assigns the next internal identifier, persists the
document, runs the registered post save middleware before reporting
completion, and invokes cb with the durably saved document. The middleware
body itself is translated from animal.js lines 46-58. -/
def modelCreate (st : AnimalStore) (saveData : JsObj) : AnimalStore × AnimalRecord :=
  let baseDoc : AnimalRecord :=
    { oid := st.nextId, petId := savePetId saveData, fields := saveData }
  let finalDoc := animalPostSaveHook baseDoc
  ({ docs := st.docs ++ [finalDoc], nextId := st.nextId + 1 }, finalDoc)

/-- Completion data handed to the upsert caller. -/
structure UpsertRunResult where
  store : AnimalStore
  cbErr : Option DBError
  cbDoc : Option AnimalRecord
deriving DecidableEq

/-- Modelled from the spec: findOneAndUpdate against the animal store with
upsert and return-new-document semantics (store driver outside src). On a
match, the save fields overwrite the stored fields; on a miss, a new record
is inserted from the query key and save data. The post findOneAndUpdate
middleware (animal.js lines 60-64) mirrors the internal identifier onto the
petId of the returned document object, without touching the stored one. -/
def modelFindOneAndUpdate (st : AnimalStore) (petId : String) (saveData : JsObj) :
    AnimalStore × AnimalRecord :=
  match st.docs.find? (fun r => r.petId == some petId) with
  | some r =>
    let stored : AnimalRecord := { r with fields := jsDefaultsOne saveData r.fields }
    let returned : AnimalRecord := { stored with petId := some (natToString stored.oid) }
    ({ st with docs := st.docs.map (fun d => if d.oid == r.oid then stored else d) },
      returned)
  | none =>
    let base : AnimalRecord := { oid := st.nextId, petId := some petId, fields := saveData }
    let returned : AnimalRecord := { base with petId := some (natToString base.oid) }
    ({ docs := st.docs ++ [base], nextId := st.nextId + 1 }, returned)

/-- End-to-end run of the static upsert (animal.js lines 66-105) against the
modelled store: the truthy-petId branch issues findOneAndUpdate, the other
branch issues model.create and, on success, reports the created document via
onComplete(null, newAnimalData); an absent document would be promoted to an
explicit creation error, a case the modelled store never produces. -/
def upsertRun (st : AnimalStore) (searchProps : SearchProps) (saveData : JsObj) :
    UpsertRunResult :=
  match searchProps.petId with
  | some s =>
    if s == "" then
      let r := modelCreate st saveData
      { store := r.fst, cbErr := none, cbDoc := some r.snd }
    else
      let r := modelFindOneAndUpdate st s saveData
      { store := r.fst, cbErr := none, cbDoc := some r.snd }
  | none =>
    let r := modelCreate st saveData
    { store := r.fst, cbErr := none, cbDoc := some r.snd }

/-! ## Timestamped specialization (timestamped.js) -/

/-- The calendar date carried by a document timestamp, as the moment library
renders it. -/
structure JsDate where
  month : Nat
  day : Nat
  year : Nat
deriving DecidableEq

/-- A sortable key for timestamps: later calendar dates get larger keys. -/
def dateKey (d : JsDate) : Nat :=
  (d.year * 13 + d.month) * 32 + d.day

/-- moment(doc.timestamp).format with pattern M.D.YYYY: month, day and year
separated by dots, without zero padding. -/
def momentFormatMDY (d : JsDate) : String :=
  natToString d.month ++ "." ++ natToString d.day ++ "." ++ natToString d.year

/-- A timestamped document: its write-time stamp and its payload. -/
structure TsDoc where
  timestamp : JsDate
  payload : JsObj
deriving DecidableEq

/-- The document delivered by findOne({}).sort({timestamp: -1}): none on an
empty collection, otherwise a document with maximal timestamp. -/
def latestDoc (docs : List TsDoc) : Option TsDoc :=
  docs.foldl
    (fun acc d =>
      match acc with
      | none => some d
      | some m => if dateKey m.timestamp < dateKey d.timestamp then some d else some m)
    none

/-- Result of the getLatest static method. -/
inductive GetLatestResult where
  | err (msg : String)
  | ok (doc : TsDoc)
deriving DecidableEq

/-- getLatest (timestamped.js lines 41-59): a driver error or an absent
document yields an error callback; an empty collection yields the explicit
error message, never an empty success. -/
def getLatest (docs : List TsDoc) : GetLatestResult :=
  match latestDoc docs with
  | none => GetLatestResult.err "Model collection is empty()"
  | some d => GetLatestResult.ok d

/-- The first callback argument of findLatest: either the wrapped database
error of the lookup, or whatever the cache save handed to done on the
success path (possibly nothing). -/
inductive FindLatestErrArg where
  | dbError (e : DBError)
  | cacheError (msg : String)
deriving DecidableEq

/-- The observable effect of one findLatest call. -/
structure FindLatestEffect where
  callbackErr : Option FindLatestErrArg
  callbackDoc : Option TsDoc
  cachedNamespace : Option String
  cachedDoc : Option TsDoc
deriving DecidableEq

/-- The JavaScript or-else on the configured species name (timestamped.js
line 82): a falsy configured name (absent or empty) falls back to the
collection name. -/
def jsOrName (speciesName : Option String) (collectionName : String) : String :=
  match speciesName with
  | some s => if s == "" then collectionName else s
  | none => collectionName

/-- findLatest (timestamped.js lines 71-94): on a lookup error the completion
callback receives a wrapped DBError and no document; on success the document
is cached under the namespace speciesName-or-collection-name dot calendar
date of its timestamp, and the done callback of the cache save forwards the
cache outcome as the first completion argument with the document second. -/
def findLatest (docs : List TsDoc) (speciesName : Option String)
    (collectionName : String) (cacheSaveErr : Option String) : FindLatestEffect :=
  match getLatest docs with
  | GetLatestResult.err m =>
    { callbackErr := some (FindLatestErrArg.dbError (DBError.mk m))
      callbackDoc := none
      cachedNamespace := none
      cachedDoc := none }
  | GetLatestResult.ok d =>
    let ns := jsOrName speciesName collectionName ++ "." ++ momentFormatMDY d.timestamp
    { callbackErr := cacheSaveErr.map FindLatestErrArg.cacheError
      callbackDoc := some d
      cachedNamespace := some ns
      cachedDoc := some d }

/-! ## Error completion paths (animal.js findAnimals, index.js create) -/

/-- Outcome of running a JavaScript callback body: either it completes and
invokes the completion callback with the given arguments, or it throws. -/
inductive JsOutcome (α : Type) where
  | ok (v : α)
  | thrown (msg : String)
deriving DecidableEq

/-- The completion body of AnimalDatabase.findAnimals (animal.js lines
201-211): the error is wrapped, then the result list is unconditionally
dereferenced with animals.map; when the store reported an error the static
findAnimals passed no list, so the member access throws. -/
def findAnimalsComplete (format : JsObj → JsObj) (err : Option String)
    (animals : Option (List JsObj)) : JsOutcome (Option DBError × List JsObj) :=
  let wrapped := err.map DBError.mk
  match animals with
  | none => JsOutcome.thrown "TypeError: cannot read property map of undefined"
  | some l => JsOutcome.ok (wrapped, l.map format)

/-- AnimalDatabase.findAnimals at the store boundary: the static findAnimals
(animal.js lines 107-128) invokes the completion with only the error on
failure and with the found list on success. -/
def findAnimalsOnStore (format : JsObj → JsObj)
    (storeResult : Except String (List JsObj)) : JsOutcome (Option DBError × List JsObj) :=
  match storeResult with
  | Except.error e => findAnimalsComplete format (some e) none
  | Except.ok l => findAnimalsComplete format none (some l)

/-- The save completion body of Database.create (index.js lines 306-314): the
error is wrapped, then savedDoc.toObject is read before any null check; when
the store reported an error there is no saved document, so the member access
throws. -/
def createComplete (err : Option String) (savedDoc : Option JsObj) :
    JsOutcome (Option DBError × JsObj) :=
  let wrapped := err.map DBError.mk
  match savedDoc with
  | none => JsOutcome.thrown "TypeError: cannot read property toObject of undefined"
  | some d => JsOutcome.ok (wrapped, d)

/-- Database.create at the store boundary: doc.save invokes its callback with
only the error on failure and with the saved document on success. -/
def createOnSave (saveResult : Except String JsObj) : JsOutcome (Option DBError × JsObj) :=
  match saveResult with
  | Except.error e => createComplete (some e) none
  | Except.ok d => createComplete none (some d)

/-! ## Lemmas about the JavaScript object model -/

theorem jsGet_append (a b : JsObj) (k : String) :
    jsGet (a ++ b) k = (jsGet a k).or (jsGet b k) := by
  unfold jsGet
  rw [List.find?_append]
  cases a.find? (fun kv => kv.fst == k) <;> simp

theorem jsGet_cons (kv : String × JsVal) (t : JsObj) (k : String) :
    jsGet (kv :: t) k = if kv.fst == k then some kv.snd else jsGet t k := by
  unfold jsGet
  by_cases hk : kv.fst = k
  · rw [List.find?_cons_of_pos _ (by simp [hk])]
    simp [hk]
  · rw [List.find?_cons_of_neg _ (by simp [hk])]
    simp [hk]

theorem jsGet_delete_self (o : JsObj) (k : String) :
    jsGet (jsDelete o k) k = none := by
  induction o with
  | nil => rfl
  | cons kv t ih =>
    unfold jsDelete at *
    rw [List.filter_cons]
    by_cases hk : kv.fst = k
    · simpa [hk] using ih
    · simpa [jsGet_cons, hk] using ih

theorem jsGet_delete_ne (o : JsObj) (k k2 : String) (h : k ≠ k2) :
    jsGet (jsDelete o k2) k = jsGet o k := by
  induction o with
  | nil => rfl
  | cons kv t ih =>
    unfold jsDelete at *
    rw [List.filter_cons]
    by_cases hk2 : kv.fst = k2
    · have hbk : (kv.fst == k) = false := by
        simp only [beq_eq_false_iff_ne]
        rw [hk2]
        exact fun hh => h hh.symm
      simp [hk2, jsGet_cons, hbk, ih, Ne.symm h]
    · simp [hk2, jsGet_cons, ih]

theorem jsDefaultsOne_eq_append (src : List (String × JsVal)) :
    ∀ dest : JsObj, ∃ e, jsDefaultsOne dest src = dest ++ e := by
  induction src with
  | nil => intro dest; exact ⟨[], by simp [jsDefaultsOne]⟩
  | cons kv t ih =>
    intro dest
    rcases ih (jsDefaultsStep dest kv) with ⟨e1, he1⟩
    have hstep : jsDefaultsOne dest (kv :: t) = jsDefaultsOne (jsDefaultsStep dest kv) t := rfl
    by_cases hp : (jsGet dest kv.fst).isSome
    · exact ⟨e1, by rw [hstep, he1]; simp [jsDefaultsStep, hp]⟩
    · refine ⟨kv :: e1, ?_⟩
      rw [hstep, he1]
      simp [jsDefaultsStep, hp]

theorem jsGet_defaultsOne_some (dest src : JsObj) (k : String) (v : JsVal)
    (h : jsGet dest k = some v) : jsGet (jsDefaultsOne dest src) k = some v := by
  rcases jsDefaultsOne_eq_append src dest with ⟨e, he⟩
  rw [he, jsGet_append, h]
  rfl

theorem jsGet_defaults_some (dest : JsObj) (srcs : List JsObj) (k : String) (v : JsVal)
    (h : jsGet dest k = some v) : jsGet (jsDefaults dest srcs) k = some v := by
  induction srcs generalizing dest with
  | nil => simpa [jsDefaults]
  | cons s t ih =>
    have h1 : jsDefaults dest (s :: t) = jsDefaults (jsDefaultsOne dest s) t := rfl
    rw [h1]
    exact ih _ (jsGet_defaultsOne_some dest s k v h)

theorem jsGet_step_other (o : JsObj) (kv : String × JsVal) (k : String)
    (hne : kv.fst ≠ k) (hnone : jsGet o k = none) :
    jsGet (jsDefaultsStep o kv) k = none := by
  unfold jsDefaultsStep
  by_cases hp : (jsGet o kv.fst).isSome
  · simp [hp, hnone]
  · simp only [hp, if_neg, Bool.false_eq_true, not_false_eq_true, if_false]
    rw [jsGet_append, hnone]
    simp [jsGet, hne]

theorem jsGet_step_self (o : JsObj) (kv : String × JsVal) (hnone : jsGet o kv.fst = none) :
    jsGet (jsDefaultsStep o kv) kv.fst = some kv.snd := by
  unfold jsDefaultsStep
  rw [hnone]
  simp only [Option.isSome_none, Bool.false_eq_true, if_false]
  rw [jsGet_append, hnone]
  simp [jsGet]

theorem jsGet_step_some (o : JsObj) (kv : String × JsVal) (k : String) (v : JsVal)
    (h : jsGet o k = some v) : jsGet (jsDefaultsStep o kv) k = some v := by
  unfold jsDefaultsStep
  by_cases hp : (jsGet o kv.fst).isSome
  · simp only [hp, if_true]
    exact h
  · simp only [hp, Bool.false_eq_true, if_false]
    rw [jsGet_append, h]
    rfl

/-! ## Claims C1 and C9: the operation queue -/

theorem runCalls_nil (prog : ThunkProg) (fuel : Nat) (st : DBState) :
    runCalls prog fuel [] st = st := by
  unfold runCalls
  rfl

theorem processQueue_pure (prog : ThunkProg) (hp : ∀ i n, prog i n = []) :
    ∀ (fuel : Nat) (st : DBState), st.queue.length ≤ fuel →
      processQueue prog fuel st = { st with queue := [], invs := st.invs ++ st.queue } := by
  intro fuel
  induction fuel with
  | zero =>
    rintro ⟨q, inv, ia, ad, af⟩ h
    have hq : q = [] := List.length_eq_zero.mp (Nat.le_zero.mp h)
    subst hq
    rw [processQueue.eq_def]
    simp
  | succ f ih =>
    rintro ⟨q, inv, ia, ad, af⟩ h
    cases q with
    | nil =>
      rw [processQueue.eq_def]
      simp
    | cons i rest =>
      have hlen : rest.length ≤ f := by simpa using h
      rw [processQueue.eq_def]
      simp only [hp, runCalls_nil, List.drop_succ_cons, List.drop_zero]
      rw [ih ⟨rest, inv ++ [i], ia, ad, af⟩ (by simpa using hlen)]
      simp

theorem exec_connected_active_pure (prog : ThunkProg) (hp : ∀ i n, prog i n = [])
    (fuel : Nat) (hfuel : 1 ≤ fuel) (t : Nat) (inv : List Nat) (ia2 : Bool) (af : Bool)
    (hia : ia2 = true) :
    exec prog fuel (some t) ⟨[], inv, ia2, AdapterState.connected, af⟩
      = ⟨[], inv ++ [t], ia2, AdapterState.connected, af⟩ := by
  subst hia
  rw [exec.eq_def]
  simp only [AdapterState.isConnected, Bool.and_true, if_true]
  have h := processQueue_pure prog hp fuel ⟨[t], inv, true, AdapterState.connected, af⟩
    (by simpa using hfuel)
  simpa using h

theorem runExecList_pure (prog : ThunkProg) (hp : ∀ i n, prog i n = [])
    (fuel : Nat) (hfuel : 1 ≤ fuel) :
    ∀ (calls : List Nat) (inv : List Nat) (af : Bool),
      runExecList prog fuel calls ⟨[], inv, true, AdapterState.connected, af⟩
        = ⟨[], inv ++ calls, true, AdapterState.connected, af⟩ := by
  intro calls
  induction calls with
  | nil => intro inv af; simp [runExecList]
  | cons t rest ih =>
    intro inv af
    have hstep : runExecList prog fuel (t :: rest) ⟨[], inv, true, AdapterState.connected, af⟩
        = runExecList prog fuel rest
            (exec prog fuel (some t) ⟨[], inv, true, AdapterState.connected, af⟩) := rfl
    rw [hstep, exec_connected_active_pure prog hp fuel hfuel t inv true af rfl, ih]
    simp

/-- C1 counterexample: with the adapter connected and the Database active, a
single exec call passing thunk 0 of the program progC (thunk 0 re-entrantly
enqueues thunk 1 on its first run) produces the invocation trace 0, 0, 1:
the nested drain of the re-entrant exec re-invokes thunk 0, which is still at
the head of the queue because the shift only happens after an invocation
returns, so thunk 0 is invoked twice, refuting the claim that no thunk is
invoked twice under re-entrant exec calls. -/
theorem C1_reentrant_counterexample :
    (exec progC 5 (some 0) ⟨[], [], true, AdapterState.connected, true⟩).invs = [0, 0, 1] ∧
    ((exec progC 5 (some 0) ⟨[], [], true, AdapterState.connected, true⟩).invs.count 0) = 2 := by
  constructor <;>
    simp [exec, processQueue, runCalls, progC, AdapterState.isConnected, AdapterState.isClosed,
      List.count_cons]

/-- C1 amended: once the adapter is connected and the Database is active,
and provided no thunk re-entrantly calls exec with a callable while the
queue is draining, every enqueued thunk is invoked exactly once and in the
order the exec calls were made: a kick drains an already pending queue in
order, and a sequence of exec calls each invokes its thunk immediately, so
the invocation trace equals the call sequence; a re-entrant exec from a
running thunk instead re-invokes the still-queued running head, as the
counterexample shows. -/
theorem C1_fifo_exactly_once_without_reentrancy (prog : ThunkProg)
    (hp : ∀ i n, prog i n = []) (fuel : Nat) (pending calls invs0 : List Nat) (af : Bool)
    (hfuel : pending.length ≤ fuel) (hfuel1 : 1 ≤ fuel) :
    (exec prog fuel none ⟨pending, invs0, true, AdapterState.connected, af⟩).invs
      = invs0 ++ pending ∧
    (exec prog fuel none ⟨pending, invs0, true, AdapterState.connected, af⟩).queue = [] ∧
    runExecList prog fuel calls ⟨[], invs0, true, AdapterState.connected, af⟩
      = ⟨[], invs0 ++ calls, true, AdapterState.connected, af⟩ := by
  have hdrain : exec prog fuel none ⟨pending, invs0, true, AdapterState.connected, af⟩
      = ⟨[], invs0 ++ pending, true, AdapterState.connected, af⟩ := by
    rw [exec.eq_def]
    simp only [AdapterState.isConnected, Bool.and_true, if_true]
    have h := processQueue_pure prog hp fuel ⟨pending, invs0, true, AdapterState.connected, af⟩
      (by simpa using hfuel)
    simpa using h
  exact ⟨by rw [hdrain], by rw [hdrain], runExecList_pure prog hp fuel hfuel1 calls invs0 af⟩

/-- Witness for the amended C1: three pending thunks drain in order on a
kick, and two live exec calls invoke their thunks in call order. -/
theorem C1_fifo_witness :
    (exec (fun _ _ => []) 3 none ⟨[0, 1, 2], [], true, AdapterState.connected, true⟩).invs
      = [] ++ [0, 1, 2] ∧
    (exec (fun _ _ => []) 3 none ⟨[0, 1, 2], [], true, AdapterState.connected, true⟩).queue
      = [] ∧
    runExecList (fun _ _ => []) 3 [3, 4] ⟨[], [], true, AdapterState.connected, true⟩
      = ⟨[], [] ++ [3, 4], true, AdapterState.connected, true⟩ :=
  C1_fifo_exactly_once_without_reentrancy (fun _ _ => []) (fun _ _ => rfl) 3 [0, 1, 2]
    [3, 4] [] true (by decide) (by decide)

theorem exec_disconnected (prog : ThunkProg) (fuel : Nat) (c : Option Nat) (st : DBState)
    (h : st.adapter = AdapterState.disconnected) :
    exec prog fuel c st = { st with queue := st.queue ++ c.toList } := by
  obtain ⟨q, inv, ia, ad, af⟩ := st
  have h2 : ad = AdapterState.disconnected := h
  subst h2
  rw [exec.eq_def]
  cases c <;> simp [AdapterState.isConnected, AdapterState.isClosed]

theorem runExecsOpt_disconnected (prog : ThunkProg) (fuel : Nat) :
    ∀ (calls : List (Option Nat)) (st : DBState), st.adapter = AdapterState.disconnected →
      runExecsOpt prog fuel calls st
        = { st with queue := st.queue ++ calls.filterMap id } := by
  intro calls
  induction calls with
  | nil => intro st h; simp [runExecsOpt]
  | cons c rest ih =>
    intro st h
    have hstep : runExecsOpt prog fuel (c :: rest) st
        = runExecsOpt prog fuel rest (exec prog fuel c st) := rfl
    rw [hstep, exec_disconnected prog fuel c st h, ih _ (by simp [h])]
    cases c <;> simp [List.filterMap_cons]

/-- C9: a disconnect event leaves the queue contents unchanged and drops no
pending entry, and however many exec calls follow while the adapter stays
disconnected, no queue entry is invoked (the invocation trace is unchanged);
callable arguments are only appended behind the pending entries. Draining is
gated on the adapter being connected and the Database active, so it can only
resume once the adapter reconnects, at which point the Database is still
marked active: the disconnect handler never cleared the Database activation
flag because its this is bound to the adapter. -/
theorem C9_disconnect_halts_draining (prog : ThunkProg) (fuel : Nat) (st : DBState)
    (calls : List (Option Nat)) :
    (disconnectEvent st).queue = st.queue ∧
    (disconnectEvent st).invs = st.invs ∧
    (runExecsOpt prog fuel calls (disconnectEvent st)).invs = st.invs ∧
    (runExecsOpt prog fuel calls (disconnectEvent st)).queue
      = st.queue ++ calls.filterMap id ∧
    (runExecsOpt prog fuel calls (disconnectEvent st)).adapter
      = AdapterState.disconnected := by
  have h := runExecsOpt_disconnected prog fuel calls (disconnectEvent st) rfl
  refine ⟨rfl, rfl, ?_, ?_, ?_⟩ <;> rw [h] <;> rfl

/-! ## Claim C3: default options of Database.update -/

/-- C3 counterexample: with the options argument omitted entirely,
Database.update hands the original undefined options variable to
findOneAndUpdate (index.js line 277 passes options, not the merged local),
so the store-level operation is issued with no options object at all, and in
particular not with upsert true and new true. -/
theorem C3_omitted_options_counterexample :
    (update [] [("name", JsVal.vStr "Rex")] none [] (JsVal.vNat 1)).storeCall.passedOptions
      = none ∧
    issuedUpsertFlag (update [] [("name", JsVal.vStr "Rex")] none [] (JsVal.vNat 1))
      ≠ some (JsVal.vBool true) ∧
    issuedNewFlag (update [] [("name", JsVal.vStr "Rex")] none [] (JsVal.vNat 1))
      ≠ some (JsVal.vBool true) := by
  refine ⟨rfl, ?_, ?_⟩ <;> decide

/-- C3 amended: when the caller passes an options object that specifies
neither upsert nor new, lodash defaults mutates that object in place, and
Database.update issues the find-one-and-update with that same object, hence
with upsert true and new true; when the options argument is omitted
entirely, the store-level operation is instead issued with no options
object. This theorem proves the first half; the counterexample above settles
the omitted case. -/
theorem C3_update_defaults_amended (whereProps saveProps : JsObj) (o : JsObj)
    (cfg : JsObj) (gid : JsVal)
    (hu : jsGet o "upsert" = none) (hn : jsGet o "new" = none) :
    ∃ r, (update whereProps saveProps (some o) cfg gid).storeCall.passedOptions = some r ∧
      jsGet r "upsert" = some (JsVal.vBool true) ∧
      jsGet r "new" = some (JsVal.vBool true) := by
  have h1 : jsGet (jsDefaultsStep o ("new", JsVal.vBool true)) "upsert" = none :=
    jsGet_step_other o _ _ (by decide) hu
  have h2 : jsGet (jsDefaultsStep o ("new", JsVal.vBool true)) "new"
      = some (JsVal.vBool true) :=
    jsGet_step_self o ("new", JsVal.vBool true) hn
  have h3 : jsGet (jsDefaultsOne o updateBuiltinOptions) "upsert"
      = some (JsVal.vBool true) :=
    jsGet_step_self _ ("upsert", JsVal.vBool true) h1
  have h4 : jsGet (jsDefaultsOne o updateBuiltinOptions) "new"
      = some (JsVal.vBool true) :=
    jsGet_step_some _ ("upsert", JsVal.vBool true) _ _ h2
  refine ⟨jsDefaults o [updateBuiltinOptions, cfg], rfl, ?_, ?_⟩
  · exact jsGet_defaultsOne_some _ cfg _ _ h3
  · exact jsGet_defaultsOne_some _ cfg _ _ h4

/-- Witness for the amended C3: a caller options object without upsert or
new receives both flags, and the store call carries them. -/
theorem C3_update_defaults_witness :
    ∃ r, (update [] [("name", JsVal.vStr "Rex")] (some [("context", JsVal.vNat 7)]) []
        (JsVal.vNat 1)).storeCall.passedOptions = some r ∧
      jsGet r "upsert" = some (JsVal.vBool true) ∧
      jsGet r "new" = some (JsVal.vBool true) :=
  C3_update_defaults_amended [] [("name", JsVal.vStr "Rex")] [("context", JsVal.vNat 7)]
    [] (JsVal.vNat 1) (by decide) (by decide)

/-! ## Claim C10: options objects are mutated in place -/

/-- C10: every options-accepting operation (findOne, findLatest, update,
create, findAnimals, saveAnimal, removeAnimal) passes the caller options
object as the destination of lodash defaults, which assigns the missing
defaulted keys into that very object and returns it; after the call the
caller variable refers to the merged object, and for update a caller object
lacking the upsert key has had upsert true inserted, so the caller argument
does not stay unchanged. -/
theorem C10_options_mutated_in_place (o cfg : JsObj) :
    (findOneOptions (some o) cfg).fst = some (jsDefaults o [cfg]) ∧
    (findLatestOptions (some o) cfg).fst = some (jsDefaults o [cfg]) ∧
    (updateOptions (some o) cfg).fst = some (jsDefaults o [updateBuiltinOptions, cfg]) ∧
    (createOptions (some o) cfg).fst = some (jsDefaults o [cfg]) ∧
    (findAnimalsOptions (some o) cfg).fst = some (jsDefaults o [cfg]) ∧
    (saveAnimalOptions (some o) cfg).fst = some (jsDefaults o [cfg]) ∧
    (removeAnimalOptions (some o) cfg).fst = some (jsDefaults o [cfg]) ∧
    (jsGet o "upsert" = none →
      jsGet (jsDefaults o [updateBuiltinOptions, cfg]) "upsert" = some (JsVal.vBool true) ∧
      (updateOptions (some o) cfg).fst ≠ some o) := by
  refine ⟨rfl, rfl, rfl, rfl, rfl, rfl, rfl, ?_⟩
  intro hu
  have h1 : jsGet (jsDefaultsStep o ("new", JsVal.vBool true)) "upsert" = none :=
    jsGet_step_other o _ _ (by decide) hu
  have h3 : jsGet (jsDefaultsOne o updateBuiltinOptions) "upsert"
      = some (JsVal.vBool true) :=
    jsGet_step_self _ ("upsert", JsVal.vBool true) h1
  have h5 : jsGet (jsDefaults o [updateBuiltinOptions, cfg]) "upsert"
      = some (JsVal.vBool true) :=
    jsGet_defaultsOne_some _ cfg _ _ h3
  refine ⟨h5, ?_⟩
  intro heq
  have h6 : some (jsDefaults o [updateBuiltinOptions, cfg]) = some o := heq
  have h7 := Option.some.inj h6
  rw [h7, hu] at h5
  exact Option.noConfusion h5

/-- Witness for C10: a caller options object holding only a complete key has
upsert true inserted in place by update, so the caller argument changed. -/
theorem C10_options_mutated_in_place_witness :
    jsGet (jsDefaults [("complete", JsVal.vNat 0)] [updateBuiltinOptions, []]) "upsert"
      = some (JsVal.vBool true) ∧
    (updateOptions (some [("complete", JsVal.vNat 0)]) []).fst
      ≠ some [("complete", JsVal.vNat 0)] :=
  (C10_options_mutated_in_place [("complete", JsVal.vNat 0)] []).2.2.2.2.2.2.2 (by decide)

/-! ## Claim C2: upsert decision rule -/

/-- C2: for every call to the domain upsert, search criteria carrying a
non-empty external identifier petId make the operation issue a
find-one-and-update keyed by that petId (never an unconditional create),
while search criteria without a non-empty petId make it issue an
unconditional create of saveData. -/
theorem C2_upsert_decision_rule (sp : SearchProps) (saveData : JsObj)
    (options : Option JsObj) :
    (∀ s, sp.petId = some s → s ≠ "" →
      ∃ opts, upsert sp saveData options
        = AnimalStoreOp.findOneAndUpdate [("petId", JsVal.vStr s)] saveData opts) ∧
    (jsTruthyStr sp.petId = false →
      upsert sp saveData options = AnimalStoreOp.create saveData) := by
  constructor
  · intro s hs hne
    obtain ⟨p⟩ := sp
    cases hs
    have hif : (s == "") = false := by simpa using hne
    cases options with
    | none => exact ⟨jsDefaults [] [upsertBuiltinOptions], by simp [upsert, hif]⟩
    | some o => exact ⟨jsDefaults o [upsertBuiltinOptions], by simp [upsert, hif]⟩
  · intro h
    cases hsp : sp.petId with
    | none => simp [upsert, hsp]
    | some s =>
      have hs : s = "" := by
        rw [hsp] at h
        simpa [jsTruthyStr] using h
      simp [upsert, hsp, hs]

/-- Witness for C2 at concrete inputs: a non-empty petId issues the keyed
find-one-and-update, an absent petId issues the unconditional create. -/
theorem C2_upsert_decision_rule_witness :
    (∃ opts, upsert ⟨some "abc"⟩ [("name", JsVal.vStr "Rex")] none
      = AnimalStoreOp.findOneAndUpdate [("petId", JsVal.vStr "abc")]
          [("name", JsVal.vStr "Rex")] opts) ∧
    upsert ⟨none⟩ [("name", JsVal.vStr "Rex")] none
      = AnimalStoreOp.create [("name", JsVal.vStr "Rex")] :=
  ⟨(C2_upsert_decision_rule ⟨some "abc"⟩ [("name", JsVal.vStr "Rex")] none).1
      "abc" rfl (by decide),
   (C2_upsert_decision_rule ⟨none⟩ [("name", JsVal.vStr "Rex")] none).2 rfl⟩

/-! ## Claim C4: creation assigns the external identifier -/

theorem natToDigitsAux_ne_nil (fuel n : Nat) (acc : List Char) :
    natToDigitsAux (fuel + 1) n acc ≠ [] := by
  induction fuel generalizing n acc with
  | zero =>
    by_cases h : n < 10 <;> simp [natToDigitsAux, h]
  | succ f ih =>
    by_cases h : n < 10
    · simp [natToDigitsAux, h]
    · have hstep : natToDigitsAux (f + 1 + 1) n acc
          = natToDigitsAux (f + 1) (n / 10) (Char.ofNat (48 + n % 10) :: acc) := by
        conv_lhs => rw [natToDigitsAux]
        simp [h]
      rw [hstep]
      exact ih _ _

theorem natToString_ne_empty (n : Nat) : natToString n ≠ "" := by
  unfold natToString
  intro h
  exact natToDigitsAux_ne_nil n n [] (congrArg String.data h)

theorem jsTruthyStr_eq_true (x : Option String) (h : jsTruthyStr x = true) :
    ∃ s, x = some s ∧ s ≠ "" := by
  cases x with
  | none => simp [jsTruthyStr] at h
  | some s => exact ⟨s, rfl, by simpa [jsTruthyStr] using h⟩

/-- C4: a domain upsert whose search criteria carry no external identifier
creates exactly one new record, and the completion callback reporting its
creation sees a record already holding a non-empty petId; when the save
payload itself carried no external identifier, that petId is exactly the
string form of the assigned internal identifier. -/
theorem C4_create_assigns_petId (st : AnimalStore) (sp : SearchProps) (saveData : JsObj)
    (h : jsTruthyStr sp.petId = false) :
    (upsertRun st sp saveData).store.docs.length = st.docs.length + 1 ∧
    (upsertRun st sp saveData).cbErr = none ∧
    ∃ r p, (upsertRun st sp saveData).cbDoc = some r ∧ r.petId = some p ∧ p ≠ "" ∧
      (jsTruthyStr (savePetId saveData) = false → p = natToString st.nextId) := by
  obtain ⟨p0⟩ := sp
  have hrun : upsertRun st ⟨p0⟩ saveData
      = { store := (modelCreate st saveData).fst, cbErr := none,
          cbDoc := some (modelCreate st saveData).snd } := by
    cases p0 with
    | none => rfl
    | some s =>
      have hs : (s == "") = true := by simpa [jsTruthyStr] using h
      simp [upsertRun, hs]
  rw [hrun]
  refine ⟨by simp [modelCreate], rfl, ?_⟩
  cases hb : jsTruthyStr (savePetId saveData) with
  | true =>
    obtain ⟨s, hse, hsne⟩ := jsTruthyStr_eq_true _ hb
    refine ⟨(modelCreate st saveData).snd, s, rfl, ?_, hsne, ?_⟩
    · simp [modelCreate, animalPostSaveHook, hse, jsTruthyStr, hsne]
    · intro hc
      exact Bool.noConfusion hc
  | false =>
    refine ⟨(modelCreate st saveData).snd, natToString st.nextId, rfl, ?_,
      natToString_ne_empty _, fun _ => rfl⟩
    simp [modelCreate, animalPostSaveHook, hb]

/-- Witness for C4: against a store with 41 records already issued, an upsert
with no search petId and a payload with no petId creates one record whose
petId is the decimal string of the assigned internal identifier. -/
theorem C4_create_assigns_petId_witness :
    (upsertRun ⟨[], 41⟩ ⟨none⟩ [("name", JsVal.vStr "New")]).store.docs.length
      = (⟨[], 41⟩ : AnimalStore).docs.length + 1 ∧
    (upsertRun ⟨[], 41⟩ ⟨none⟩ [("name", JsVal.vStr "New")]).cbErr = none ∧
    ∃ r p, (upsertRun ⟨[], 41⟩ ⟨none⟩ [("name", JsVal.vStr "New")]).cbDoc = some r ∧
      r.petId = some p ∧ p ≠ "" ∧
      (jsTruthyStr (savePetId [("name", JsVal.vStr "New")]) = false →
        p = natToString (⟨[], 41⟩ : AnimalStore).nextId) :=
  C4_create_assigns_petId ⟨[], 41⟩ ⟨none⟩ [("name", JsVal.vStr "New")] rfl

/-! ## Claim C5: error completion paths -/

/-- C5: the claim that on a store error every CRUD completion path hands the
error to the completion callback and never throws is refuted at the failing
input of a store error: the findAnimals completion dereferences the absent
result list with animals.map, and the create completion dereferences the
absent saved document with savedDoc.toObject, so both throw instead of
invoking the callback. -/
theorem C5_error_paths_throw :
    findAnimalsOnStore (fun d => d) (Except.error "store failure")
      = JsOutcome.thrown "TypeError: cannot read property map of undefined" ∧
    createOnSave (Except.error "store failure")
      = JsOutcome.thrown "TypeError: cannot read property toObject of undefined" :=
  ⟨rfl, rfl⟩

/-! ## Claim C6: update strips internal identifier and version fields -/

/-- C6: for every save payload passed to Database.update, also payloads that
contain internal-identifier and version fields, the write document issued to
the store contains neither the internal-identifier field nor the version
field. -/
theorem C6_update_strips_id_and_version (whereProps saveProps : JsObj)
    (options : Option JsObj) (cfg : JsObj) (gid : JsVal) :
    jsGet (update whereProps saveProps options cfg gid).storeCall.writeDoc "_id" = none ∧
    jsGet (update whereProps saveProps options cfg gid).storeCall.writeDoc "__v" = none := by
  have hdoc : (update whereProps saveProps options cfg gid).storeCall.writeDoc
      = jsDelete (jsDelete (mongooseToObject saveProps gid) "_id") "__v" := rfl
  constructor
  · rw [hdoc, jsGet_delete_ne _ _ _ (by decide)]
    exact jsGet_delete_self _ _
  · rw [hdoc]
    exact jsGet_delete_self _ _

/-! ## Claim C7: findLatest on an empty collection -/

/-- C7: for every findLatest call against an empty collection, the completion
callback is invoked with a non-null error (the no-docs-found condition) and
never with a successful empty or default result. -/
theorem C7_findLatest_empty_errors (speciesName : Option String)
    (collectionName : String) (cacheSaveErr : Option String) (docs : List TsDoc)
    (h : docs = []) :
    (findLatest docs speciesName collectionName cacheSaveErr).callbackErr
      = some (FindLatestErrArg.dbError (DBError.mk "Model collection is empty()")) ∧
    (findLatest docs speciesName collectionName cacheSaveErr).callbackDoc = none := by
  subst h
  exact ⟨rfl, rfl⟩

/-- Witness for C7 at the concrete empty collection. -/
theorem C7_findLatest_empty_errors_witness :
    (findLatest [] none "prod_animal" none).callbackErr
      = some (FindLatestErrArg.dbError (DBError.mk "Model collection is empty()")) ∧
    (findLatest [] none "prod_animal" none).callbackDoc = none :=
  C7_findLatest_empty_errors none "prod_animal" none [] rfl

/-! ## Claim C8: findLatest caching namespace and cache error forwarding -/

/-- C8: every successful findLatest retrieval caches the document under the
namespace formed of the configured species name (falling back to the
collection name), a dot, and the calendar date of the document timestamp;
and the cache outcome is passed as the first completion argument while the
retrieved document is still delivered second. -/
theorem C8_findLatest_caches_and_forwards (docs : List TsDoc)
    (speciesName : Option String) (collectionName : String)
    (cacheSaveErr : Option String) (d : TsDoc)
    (h : getLatest docs = GetLatestResult.ok d) :
    (findLatest docs speciesName collectionName cacheSaveErr).cachedNamespace
      = some (jsOrName speciesName collectionName ++ "." ++ momentFormatMDY d.timestamp) ∧
    (findLatest docs speciesName collectionName cacheSaveErr).cachedDoc = some d ∧
    (findLatest docs speciesName collectionName cacheSaveErr).callbackErr
      = cacheSaveErr.map FindLatestErrArg.cacheError ∧
    (findLatest docs speciesName collectionName cacheSaveErr).callbackDoc = some d := by
  unfold findLatest
  rw [h]
  exact ⟨rfl, rfl, rfl, rfl⟩

/-- Witness for C8: one stored document, a configured species name, and a
failing cache write; the document is cached under the date-qualified
namespace and the cache error rides in front of the delivered document. -/
theorem C8_findLatest_caches_and_forwards_witness :
    (findLatest [⟨⟨10, 11, 2016⟩, [("name", JsVal.vStr "Rex")]⟩] (some "dog")
        "prod_animal" (some "disk full")).cachedNamespace
      = some (jsOrName (some "dog") "prod_animal" ++ "."
          ++ momentFormatMDY ⟨10, 11, 2016⟩) ∧
    (findLatest [⟨⟨10, 11, 2016⟩, [("name", JsVal.vStr "Rex")]⟩] (some "dog")
        "prod_animal" (some "disk full")).cachedDoc
      = some ⟨⟨10, 11, 2016⟩, [("name", JsVal.vStr "Rex")]⟩ ∧
    (findLatest [⟨⟨10, 11, 2016⟩, [("name", JsVal.vStr "Rex")]⟩] (some "dog")
        "prod_animal" (some "disk full")).callbackErr
      = (some "disk full").map FindLatestErrArg.cacheError ∧
    (findLatest [⟨⟨10, 11, 2016⟩, [("name", JsVal.vStr "Rex")]⟩] (some "dog")
        "prod_animal" (some "disk full")).callbackDoc
      = some ⟨⟨10, 11, 2016⟩, [("name", JsVal.vStr "Rex")]⟩ :=
  C8_findLatest_caches_and_forwards
    [⟨⟨10, 11, 2016⟩, [("name", JsVal.vStr "Rex")]⟩] (some "dog") "prod_animal"
    (some "disk full") ⟨⟨10, 11, 2016⟩, [("name", JsVal.vStr "Rex")]⟩ rfl

end PetAdoption
